import Mathlib

/-!
The ipheth driver: binding, hardware address fetch and carrier monitor.

A shallow embedding of `src/ipheth.c`.  Every driver routine is a pure function
on an explicit machine state `ipheth_state`; the outcome of each USB control
transfer and the clock readings are arguments supplied by the environment.  Calls into the USB core
and the work queue are recorded in a trace so that ordering properties
(what was issued, and before what) can be stated.
-/

namespace Ipheth

/-! Constants of the driver -/

def IPHETH_INTFNUM : Nat := 2
def IPHETH_ALT_INTFNUM : Nat := 1
def IPHETH_BUF_SIZE : Nat := 1516
def IPHETH_IP_ALIGN : Nat := 2
def IPHETH_CTRL_ENDP : Nat := 0x00
def IPHETH_CTRL_BUF_SIZE : Nat := 0x40
/-- Control transfer timeout `5 * HZ` ticks, that is 5 seconds whatever the tick
rate; kept in seconds. -/
def IPHETH_CTRL_TIMEOUT : Nat := 5
def IPHETH_CMD_GET_MACADDR : Nat := 0x00
def IPHETH_CMD_CARRIER_CHECK : Nat := 0x45
def IPHETH_CARRIER_ON : Nat := 0x04

/-! Constants of the kernel headers used by the driver -/

/-- Errno value of `ENODEV` (errno-base.h). -/
def ENODEV : Int := 19
/-- Errno value of `EINVAL` (errno-base.h). -/
def EINVAL : Int := 22
/-- Length of an Ethernet address (if_ether.h). -/
def ETH_ALEN : Nat := 6
def USB_ENDPOINT_NUMBER_MASK : Nat := 0x0f
def USB_ENDPOINT_DIR_MASK : Nat := 0x80
def USB_DIR_IN : Nat := 0x80
def USB_DIR_OUT : Nat := 0
def USB_ENDPOINT_XFERTYPE_MASK : Nat := 0x03
def USB_ENDPOINT_XFER_BULK : Nat := 2

/-! Data model -/

/-- The two fields of `struct usb_endpoint_descriptor` the driver reads (both `__u8`). -/
structure usb_endpoint_descriptor where
  bEndpointAddress : Nat
  bmAttributes : Nat
  deriving DecidableEq, Repr

/-- One alternate setting: `desc.bAlternateSetting` and the endpoint array, whose
length is `desc.bNumEndpoints`. -/
structure usb_host_interface where
  bAlternateSetting : Nat
  endpoint : List usb_endpoint_descriptor
  deriving DecidableEq, Repr

/-- The interface handed to bind: its array of alternate settings. -/
structure usb_interface where
  altsetting : List usb_host_interface
  deriving DecidableEq, Repr

/-- A pipe handle.  The pipe constructors of the USB core are kept symbolic:
`rcvbulk d e` stands for `usb_rcvbulkpipe(udev, e)` on the device numbered `d`,
and so on; `unset` is the value of a pipe field nobody has written yet. -/
inductive usb_pipe where
  | unset
  | rcvbulk (devnum endpoint : Nat)
  | sndbulk (devnum endpoint : Nat)
  | rcvctrl (devnum endpoint : Nat)
  deriving DecidableEq, Repr

/-- The fields of `struct net_device` the driver touches.  The address arrays are
byte lists; `carrier_ok` is the link state set by `netif_carrier_on/off`. -/
structure net_device where
  dev_addr : List Nat
  perm_addr : List Nat
  carrier_ok : Bool
  deriving DecidableEq, Repr

/-- The fields of `struct usbnet` the driver touches (`udev` is kept as the
device number; `in_pipe`/`out_pipe` are the C fields `in` and `out`). -/
structure usbnet where
  udev : Nat
  net : net_device
  in_pipe : usb_pipe
  out_pipe : usb_pipe
  rx_urb_size : Nat
  deriving DecidableEq, Repr

/-- A `struct usbnet *`: NULL, or the address of the adapter instance. -/
inductive usbnet_ptr where
  | NULL
  | addr
  deriving DecidableEq, Repr

/-- A `struct delayed_work` as the work queue sees it: the PENDING bit of the
work item, and the timers currently armed for it (each with the delay, in
ticks, it was armed with). -/
structure delayed_work where
  pending : Bool
  timers : List Nat
  deriving DecidableEq, Repr

/-- The process-wide `struct ipheth_local`.  The mutex is not a field here: the
routines on `ipheth_state` describe calls that run to their return, one at a
time.  The mutex itself, and a call that cannot go on, are in `conc_state`. -/
structure ipheth_local where
  dev : usbnet_ptr
  carrier_work : delayed_work
  deriving DecidableEq, Repr

/-- Calls made into the USB core and the work queue, in program order. -/
inductive usb_event where
  | control_msg (pipe : usb_pipe) (request requesttype value index size timeout : Nat)
  | set_interface (devnum ifnum alternate : Nat)
  | schedule_delayed_work (delay : Nat)
  | cancel_delayed_work_sync
  deriving DecidableEq, Repr

/-- Result of one `usb_control_msg`: the `int` it returns and the bytes the
transfer stored into the buffer of the caller. -/
structure ctrl_xfer where
  retval : Int
  data : List Nat
  deriving DecidableEq, Repr

/-- The whole machine state: the adapter instance, the static `local`, and the
trace of calls issued so far.  There is one adapter instance; a further attach
is a further bind on it, which is all the process-wide `local` can tell apart. -/
structure ipheth_state where
  dev : usbnet
  loc : ipheth_local
  trace : List usb_event
  deriving DecidableEq, Repr

/-! Kernel helpers the driver calls -/

/-- Modelled from the spec: the endpoint classifiers are kernel header helpers
that are not part of the repository; the spec classifies "by direction+transfer-type
bits".  Direction is bit 7 of the address. -/
def usb_endpoint_dir_in (epd : usb_endpoint_descriptor) : Bool :=
  (epd.bEndpointAddress &&& USB_ENDPOINT_DIR_MASK) == USB_DIR_IN

/-- Modelled from the spec: direction bit clear (see `usb_endpoint_dir_in`). -/
def usb_endpoint_dir_out (epd : usb_endpoint_descriptor) : Bool :=
  (epd.bEndpointAddress &&& USB_ENDPOINT_DIR_MASK) == USB_DIR_OUT

/-- Modelled from the spec: transfer type is the low two bits of the attributes. -/
def usb_endpoint_xfer_bulk (epd : usb_endpoint_descriptor) : Bool :=
  (epd.bmAttributes &&& USB_ENDPOINT_XFERTYPE_MASK) == USB_ENDPOINT_XFER_BULK

/-- Modelled from the spec: bulk transfer type and IN direction. -/
def usb_endpoint_is_bulk_in (epd : usb_endpoint_descriptor) : Bool :=
  usb_endpoint_xfer_bulk epd && usb_endpoint_dir_in epd

/-- Modelled from the spec: bulk transfer type and OUT direction. -/
def usb_endpoint_is_bulk_out (epd : usb_endpoint_descriptor) : Bool :=
  usb_endpoint_xfer_bulk epd && usb_endpoint_dir_out epd

/-- Modelled from the spec: the USB core lookup of an alternate setting by number
is not part of the repository; it yields the first setting carrying that number,
or nothing ("the required alternate setting is absent"). -/
def usb_altnum_to_altsetting (intf : usb_interface) (altnum : Nat) :
    Option usb_host_interface :=
  intf.altsetting.find? (fun h => h.bAlternateSetting == altnum)

/-- The byte array `ctrl_buf[IPHETH_CTRL_BUF_SIZE] = {0}` after a transfer stored
`data` into it: at most 64 bytes are taken, the rest stays zero. -/
def ctrl_buf_after (data : List Nat) : List Nat :=
  data.take IPHETH_CTRL_BUF_SIZE ++
    List.replicate (IPHETH_CTRL_BUF_SIZE - (data.take IPHETH_CTRL_BUF_SIZE).length) 0

/-- Semantics of `memcpy(dst, src, n)` on byte lists. -/
def memcpy (dst src : List Nat) (n : Nat) : List Nat :=
  src.take n ++ dst.drop n

/-- Link state setter of the network stack. -/
def netif_carrier_on (net : net_device) : net_device := { net with carrier_ok := true }

/-- Link state setter of the network stack. -/
def netif_carrier_off (net : net_device) : net_device := { net with carrier_ok := false }

/-- Modelled from the spec: the work queue is not part of the repository.  The
initialiser resets the fields of the work item, so its PENDING bit is clear
afterwards; it is not a cancellation, so a timer already armed for the item
stays armed. -/
def INIT_DELAYED_WORK (w : delayed_work) : delayed_work :=
  { w with pending := false }

/-- Modelled from the spec: queueing a delayed work item is a test-and-set on
the PENDING bit ("never two outstanding handles"): an item that is already
pending is left alone, otherwise a timer with the given delay is armed. -/
def schedule_delayed_work (w : delayed_work) (delay : Nat) : delayed_work :=
  if w.pending then w else { pending := true, timers := w.timers ++ [delay] }

/-- Modelled from the spec: synchronous cancellation leaves nothing outstanding
for the work item ("no poll may run after Stop returns"). -/
def cancel_delayed_work_sync (_w : delayed_work) : delayed_work :=
  { pending := false, timers := [] }

/-- Modelled from the spec: expiry of the armed timer.  The work queue removes
the timer and clears PENDING before it calls the work function. -/
def delayed_work_timer_fn (w : delayed_work) : delayed_work :=
  { pending := false, timers := w.timers.tail }

/-- The clock readings the timer code depends on: the tick rate `HZ` (ticks per
second), the tick counter `jiffies` (an `unsigned long`) and the number of the
processor the caller runs on. -/
structure kclock where
  HZ : Nat
  jiffies : Nat
  cpu : Nat
  deriving DecidableEq, Repr

/-- Range of `unsigned long` on a 64-bit kernel: values are taken modulo `2^64`. -/
def ULONG_MOD : Nat := 18446744073709551616

/-- Addition of two `unsigned long` values. -/
def ulong_add (a b : Nat) : Nat := (a + b) % ULONG_MOD

/-- Subtraction of two `unsigned long` values. -/
def ulong_sub (a b : Nat) : Nat := (a + ULONG_MOD - b % ULONG_MOD) % ULONG_MOD

/-- Modelled from the spec: the timer code of the kernel is not part of the
repository.  `time_is_after_jiffies(a)` holds when `(long)(jiffies - a) < 0`. -/
def time_is_after_jiffies (k : kclock) (a : Nat) : Bool :=
  decide (ULONG_MOD / 2 ≤ ulong_sub k.jiffies a)

/-- Modelled from the spec: the rounding the kernel applies to a timer expiry
("jittered to the nearest second boundary by the host scheduler").  The expiry
is skewed by three ticks per processor, rounded down to a whole second when it
lies less than a quarter second past one and up otherwise, the skew is taken
off again, and the unrounded value is kept if the result is not in the future. -/
def round_jiffies_common (k : kclock) (j : Nat) : Nat :=
  let original := j
  let j1 := ulong_add j (k.cpu * 3)
  let rem := j1 % k.HZ
  let j2 := if rem < k.HZ / 4 then ulong_sub j1 rem else ulong_add (ulong_sub j1 rem) k.HZ
  let j3 := ulong_sub j2 (k.cpu * 3)
  if time_is_after_jiffies k j3 then j3 else original

/-- Modelled from the spec: `round_jiffies_relative(j)` rounds the expiry
`j + jiffies` and returns it relative to `jiffies` again. -/
def round_jiffies_relative (k : kclock) (j : Nat) : Nat :=
  let j0 := k.jiffies
  ulong_sub (round_jiffies_common k (ulong_add j j0)) j0

/-- Poll interval `round_jiffies_relative(1 * HZ)` (line 75), in ticks. -/
def IPHETH_CARRIER_CHECK_TIMEOUT (k : kclock) : Nat := round_jiffies_relative k (1 * k.HZ)

/-- The clock readings are in range: a tick rate of at least 4 that fits an
`int`, a tick counter that fits an `unsigned long`, and a processor number whose
triple fits an `int`. -/
def kclock_ok (k : kclock) : Bool :=
  decide (4 ≤ k.HZ) && decide (k.HZ < 2147483648) && decide (k.jiffies < ULONG_MOD) &&
    decide (k.cpu < 536870912)

/-- Modelled from the spec: "valid alternate-setting descriptor sets".  Endpoint
number 0 is the control endpoint (`IPHETH_CTRL_ENDP`); a descriptor the USB core
hands to a driver has a non-zero endpoint number. -/
def usb_endpoint_valid (epd : usb_endpoint_descriptor) : Bool :=
  (epd.bEndpointAddress &&& USB_ENDPOINT_NUMBER_MASK) != 0

/-! The driver routines -/

/-- Poll the carrier once (`ipheth_carrier_set`, lines 103-138). -/
def ipheth_carrier_set (s : ipheth_state) (dev : usbnet_ptr) (x : ctrl_xfer) :
    Int × ipheth_state :=
  match dev with
  | usbnet_ptr.NULL => (-EINVAL, s)
  | usbnet_ptr.addr =>
    let s1 := { s with trace := s.trace ++
      [usb_event.control_msg (usb_pipe.rcvctrl s.dev.udev IPHETH_CTRL_ENDP)
        IPHETH_CMD_CARRIER_CHECK 0xc0 0x00 0x02 IPHETH_CTRL_BUF_SIZE IPHETH_CTRL_TIMEOUT] }
    let ctrl_buf := ctrl_buf_after x.data
    let retval := x.retval
    if retval < 0 then (retval, s1)
    else if ctrl_buf.getD 0 0 == IPHETH_CARRIER_ON then
      (retval, { s1 with dev := { s1.dev with net := netif_carrier_on s1.dev.net } })
    else
      (retval, { s1 with dev := { s1.dev with net := netif_carrier_off s1.dev.net } })

/-- The work function (`ipheth_carrier_check_work`, lines 140-149), run to its
end with the mutex held; `k` is the clock read by the reschedule. -/
def ipheth_carrier_check_work (s : ipheth_state) (x : ctrl_xfer) (k : kclock) :
    ipheth_state :=
  let dev := s.loc.dev
  let s1 := (ipheth_carrier_set s dev x).2
  { s1 with
    loc := { s1.loc with
      carrier_work :=
        schedule_delayed_work s1.loc.carrier_work (IPHETH_CARRIER_CHECK_TIMEOUT k) }
    trace := s1.trace ++ [usb_event.schedule_delayed_work (IPHETH_CARRIER_CHECK_TIMEOUT k)] }

/-- Fetch the hardware address (`ipheth_get_macaddr`, lines 151-180). -/
def ipheth_get_macaddr (s : ipheth_state) (x : ctrl_xfer) : Int × ipheth_state :=
  let s1 := { s with trace := s.trace ++
    [usb_event.control_msg (usb_pipe.rcvctrl s.dev.udev IPHETH_CTRL_ENDP)
      IPHETH_CMD_GET_MACADDR 0xc0 0x00 0x02 IPHETH_CTRL_BUF_SIZE IPHETH_CTRL_TIMEOUT] }
  let ctrl_buf := ctrl_buf_after x.data
  let retval := x.retval
  if retval < 0 then (retval, s1)
  else if retval < (ETH_ALEN : Int) then (-EINVAL, s1)
  else
    (0, { s1 with dev := { s1.dev with net := { s1.dev.net with
            dev_addr := memcpy s1.dev.net.dev_addr ctrl_buf ETH_ALEN
            perm_addr := memcpy s1.dev.net.perm_addr ctrl_buf ETH_ALEN } } })

/-- One iteration of the endpoint loop of `ipheth_bind` (lines 200-204), acting
on the pair of locals `(bulk_in, bulk_out)`. -/
def ipheth_bind_scan_step (acc : Nat × Nat) (endp : usb_endpoint_descriptor) : Nat × Nat :=
  if usb_endpoint_is_bulk_in endp then (endp.bEndpointAddress, acc.2)
  else if usb_endpoint_is_bulk_out endp then (acc.1, endp.bEndpointAddress)
  else acc

/-- The endpoint loop of `ipheth_bind` (lines 188-205): both locals start at 0. -/
def ipheth_bind_scan (endpoint : List usb_endpoint_descriptor) : Nat × Nat :=
  endpoint.foldl ipheth_bind_scan_step (0, 0)

/-- Bind the driver to an interface (`ipheth_bind`, lines 182-236). -/
def ipheth_bind (s : ipheth_state) (intf : usb_interface) (x : ctrl_xfer) :
    Int × ipheth_state :=
  match usb_altnum_to_altsetting intf IPHETH_ALT_INTFNUM with
  | none => (-ENODEV, s)
  | some hintf =>
    let bulk_in := (ipheth_bind_scan hintf.endpoint).1
    let bulk_out := (ipheth_bind_scan hintf.endpoint).2
    if !(bulk_in != 0 && bulk_out != 0) then (-ENODEV, s)
    else
      let s1 := { s with dev := { s.dev with
        in_pipe := usb_pipe.rcvbulk s.dev.udev (bulk_in &&& USB_ENDPOINT_NUMBER_MASK)
        out_pipe := usb_pipe.sndbulk s.dev.udev (bulk_out &&& USB_ENDPOINT_NUMBER_MASK)
        rx_urb_size := IPHETH_BUF_SIZE } }
      let r := ipheth_get_macaddr s1 x
      if r.1 != 0 then (r.1, r.2)
      else
        (r.1, { r.2 with loc :=
          { dev := usbnet_ptr.addr, carrier_work := INIT_DELAYED_WORK r.2.loc.carrier_work } })

/-- Reset (`ipheth_reset`, lines 239-250): the result of `usb_set_interface` is
ignored, then the work function is called directly. -/
def ipheth_reset (s : ipheth_state) (x : ctrl_xfer) (k : kclock) : Int × ipheth_state :=
  let s1 := { s with trace := s.trace ++
    [usb_event.set_interface s.dev.udev IPHETH_INTFNUM IPHETH_ALT_INTFNUM] }
  (0, ipheth_carrier_check_work s1 x k)

/-- Stop (`ipheth_stop`, lines 253-260), as one atomic step: the value returned
and the state left by a call that runs to its return, which is the effect of
line 256.  Whether the call gets there is the subject of `conc_step` below,
where taking the mutex, the cancellation and the release are separate steps. -/
def ipheth_stop (s : ipheth_state) : Int × ipheth_state :=
  (0, { s with
    loc := { s.loc with carrier_work := cancel_delayed_work_sync s.loc.carrier_work }
    trace := s.trace ++ [usb_event.cancel_delayed_work_sync] })

/-- A received frame: the linear data of the `sk_buff`. -/
structure sk_buff where
  data : List Nat
  deriving DecidableEq, Repr

/-- Modelled from the spec: the buffer helper is not part of the repository.  It
"removes a fixed prefix"; when the frame is shorter than the prefix the helper
declines and nothing is removed. -/
def skb_pull (skb : sk_buff) (len : Nat) : sk_buff :=
  if len > skb.data.length then skb else { data := skb.data.drop len }

/-- Ingress adjustment (`ipheth_rx_fixup`, lines 263-267). -/
def ipheth_rx_fixup (skb : sk_buff) : Int × sk_buff :=
  (1, skb_pull skb IPHETH_IP_ALIGN)

/-! The step relation of the carrier monitor -/

/-- The work item is idle: not pending and no timer armed. -/
def monitor_idle (s : ipheth_state) : Bool :=
  !s.loc.carrier_work.pending && s.loc.carrier_work.timers.isEmpty

/-- The work item is scheduled: its PENDING bit is set (`delayed_work_pending`). -/
def monitor_scheduled (s : ipheth_state) : Bool :=
  s.loc.carrier_work.pending

/-- The steps of the system, each with the input the environment supplies. -/
inductive ipheth_step where
  | bind (intf : usb_interface) (x : ctrl_xfer)
  | reset (x : ctrl_xfer) (k : kclock)
  | poll (x : ctrl_xfer) (k : kclock)
  | stop
  deriving DecidableEq, Repr

/-- One step.  A timer-fired poll needs an armed timer: the timer expires
(`delayed_work_timer_fn`) and the work function runs. -/
def step (s : ipheth_state) : ipheth_step → Option ipheth_state
  | ipheth_step.bind intf x => some (ipheth_bind s intf x).2
  | ipheth_step.reset x k => some (ipheth_reset s x k).2
  | ipheth_step.poll x k =>
    if s.loc.carrier_work.timers.isEmpty then none
    else some (ipheth_carrier_check_work
      { s with loc := { s.loc with carrier_work := delayed_work_timer_fn s.loc.carrier_work } }
      x k)
  | ipheth_step.stop => some (ipheth_stop s).2

/-- Run a sequence of steps; `none` when some step is not enabled. -/
def run (s : ipheth_state) : List ipheth_step → Option ipheth_state
  | [] => some s
  | l :: ls => (step s l).bind (fun t => run t ls)

/-- One step of a single attach cycle: as `step`, but a bind is taken only while
the monitor is idle. -/
def step_attached (s : ipheth_state) (l : ipheth_step) : Option ipheth_state :=
  match l with
  | ipheth_step.bind _ _ => if monitor_idle s then step s l else none
  | _ => step s l

/-- Run a sequence of steps of a single attach cycle. -/
def run_attached (s : ipheth_state) : List ipheth_step → Option ipheth_state
  | [] => some s
  | l :: ls => (step_attached s l).bind (fun t => run_attached t ls)

/-- The state at module load: `local` is zero-filled and nothing was issued. -/
def ipheth_init (dev : usbnet) : ipheth_state :=
  { dev := dev
    loc := { dev := usbnet_ptr.NULL, carrier_work := { pending := false, timers := [] } }
    trace := [] }

/-- The address kept by the scan for a classifier `p`: that of the last
descriptor satisfying `p`, or 0 (the initial value of the local) when there is none. -/
def last_match_addr (p : usb_endpoint_descriptor → Bool)
    (endpoint : List usb_endpoint_descriptor) : Nat :=
  match (endpoint.filter p).getLast? with
  | some d => d.bEndpointAddress
  | none => 0

/-- Sample adapter used in the concrete evaluations. -/
def sample_dev : usbnet :=
  { udev := 7
    net := { dev_addr := [0, 0, 0, 0, 0, 0], perm_addr := [0, 0, 0, 0, 0, 0], carrier_ok := false }
    in_pipe := usb_pipe.unset
    out_pipe := usb_pipe.unset
    rx_urb_size := 0 }

/-- Sample interface: alternate setting 1 with an interrupt endpoint, a bulk-in
endpoint 0x81 and a bulk-out endpoint 0x02. -/
def sample_intf : usb_interface :=
  { altsetting :=
      [ { bAlternateSetting := 0, endpoint := [] },
        { bAlternateSetting := 1,
          endpoint := [⟨0x83, 3⟩, ⟨0x81, 2⟩, ⟨0x02, 2⟩] } ] }

/-- Sample interface without any bulk-out endpoint. -/
def no_out_intf : usb_interface :=
  { altsetting := [ { bAlternateSetting := 1, endpoint := [⟨0x83, 3⟩, ⟨0x81, 2⟩] } ] }

/-- Sample carrier response with byte 0 equal to the carrier-on code. -/
def sample_carrier_on : ctrl_xfer := { retval := 1, data := [0x04] }

/-- Sample carrier response with byte 0 equal to zero. -/
def sample_carrier_off : ctrl_xfer := { retval := 1, data := [0x00] }

/-- Sample failed transfer (a timeout). -/
def sample_xfer_error : ctrl_xfer := { retval := -110, data := [] }

/-- Sample address response: 64 bytes, the first six being AA:BB:CC:DD:EE:FF. -/
def sample_mac_xfer : ctrl_xfer :=
  { retval := 64, data := [0xAA, 0xBB, 0xCC, 0xDD, 0xEE, 0xFF] ++ List.replicate 58 0 }

/-- Sample clock: 1000 ticks per second, 300 ticks on the counter, processor 0.
One second from now is tick 1300, which is rounded up to tick 2000. -/
def sample_clock : kclock := { HZ := 1000, jiffies := 300, cpu := 0 }

/-- Sample run of one attach cycle. -/
def sample_cycle : List ipheth_step :=
  [ipheth_step.bind sample_intf sample_mac_xfer,
   ipheth_step.reset sample_carrier_on sample_clock,
   ipheth_step.poll sample_carrier_on sample_clock,
   ipheth_step.reset sample_carrier_off sample_clock]

/-- The state in which `sample_cycle` ends. -/
def sample_cycle_end : ipheth_state :=
  { dev :=
      { udev := 7
        net := { dev_addr := [0xAA, 0xBB, 0xCC, 0xDD, 0xEE, 0xFF]
                 perm_addr := [0xAA, 0xBB, 0xCC, 0xDD, 0xEE, 0xFF]
                 carrier_ok := false }
        in_pipe := usb_pipe.rcvbulk 7 1
        out_pipe := usb_pipe.sndbulk 7 2
        rx_urb_size := 1516 }
    loc := { dev := usbnet_ptr.addr, carrier_work := { pending := true, timers := [1700] } }
    trace :=
      [usb_event.control_msg (usb_pipe.rcvctrl 7 0) 0x00 0xc0 0 2 64 5,
       usb_event.set_interface 7 2 1,
       usb_event.control_msg (usb_pipe.rcvctrl 7 0) 0x45 0xc0 0 2 64 5,
       usb_event.schedule_delayed_work 1700,
       usb_event.control_msg (usb_pipe.rcvctrl 7 0) 0x45 0xc0 0 2 64 5,
       usb_event.schedule_delayed_work 1700,
       usb_event.set_interface 7 2 1,
       usb_event.control_msg (usb_pipe.rcvctrl 7 0) 0x45 0xc0 0 2 64 5,
       usb_event.schedule_delayed_work 1700] }

/-! Stop against a poll in flight: the mutex and the two threads of control -/

/-- Who holds `local.local_mutex`. -/
inductive mutex_owner where
  | free
  | stop_caller
  | work_fn
  deriving DecidableEq, Repr

/-- Where the caller of `ipheth_stop` stands: before line 255, holding the mutex
at line 256, past the cancellation at line 257, or returned. -/
inductive stop_pc where
  | entry
  | holding
  | cancelled
  | returned
  deriving DecidableEq, Repr

/-- Where the work queue stands with the work function: not running, entered and
waiting for the mutex at line 144, or holding the mutex in lines 145-148. -/
inductive work_pc where
  | not_running
  | at_lock
  | in_section
  deriving DecidableEq, Repr

/-- The machine state together with the mutex and the two positions. -/
structure conc_state where
  st : ipheth_state
  local_mutex : mutex_owner
  stop_at : stop_pc
  work_at : work_pc
  deriving DecidableEq, Repr

/-- The moves of the two threads. -/
inductive conc_label where
  | timer_expires
  | work_lock
  | work_body (x : ctrl_xfer) (k : kclock)
  | stop_lock
  | stop_cancel
  | stop_unlock
  deriving DecidableEq, Repr

/-- One move; `none` when the move is blocked or not at its turn.
The timer expires and the work queue enters the work function (line 144); the
work function takes the mutex when it is free; it then runs lines 145-148 and
releases the mutex.  Stop takes the mutex when it is free (line 255); its
`cancel_delayed_work_sync` (line 256) returns only once no run of the work
function is under way; it then releases the mutex and returns (lines 257-259). -/
def conc_step (c : conc_state) : conc_label → Option conc_state
  | conc_label.timer_expires =>
    if !c.st.loc.carrier_work.timers.isEmpty && c.work_at == work_pc.not_running then
      some { c with
        st := { c.st with loc := { c.st.loc with
          carrier_work := delayed_work_timer_fn c.st.loc.carrier_work } }
        work_at := work_pc.at_lock }
    else none
  | conc_label.work_lock =>
    if c.work_at == work_pc.at_lock && c.local_mutex == mutex_owner.free then
      some { c with local_mutex := mutex_owner.work_fn, work_at := work_pc.in_section }
    else none
  | conc_label.work_body x k =>
    if c.work_at == work_pc.in_section then
      some { c with
        st := ipheth_carrier_check_work c.st x k
        local_mutex := mutex_owner.free
        work_at := work_pc.not_running }
    else none
  | conc_label.stop_lock =>
    if c.stop_at == stop_pc.entry && c.local_mutex == mutex_owner.free then
      some { c with local_mutex := mutex_owner.stop_caller, stop_at := stop_pc.holding }
    else none
  | conc_label.stop_cancel =>
    if c.stop_at == stop_pc.holding && c.work_at == work_pc.not_running then
      some { c with st := (ipheth_stop c.st).2, stop_at := stop_pc.cancelled }
    else none
  | conc_label.stop_unlock =>
    if c.stop_at == stop_pc.cancelled then
      some { c with local_mutex := mutex_owner.free, stop_at := stop_pc.returned }
    else none

/-- Run a sequence of moves; `none` when some move is blocked. -/
def conc_run (c : conc_state) : List conc_label → Option conc_state
  | [] => some c
  | l :: ls => (conc_step c l).bind (fun d => conc_run d ls)

/-- A call of `ipheth_stop` is about to start in state `s`: the mutex is free and
the work function is not running. -/
def conc_init (s : ipheth_state) : conc_state :=
  { st := s, local_mutex := mutex_owner.free, stop_at := stop_pc.entry,
    work_at := work_pc.not_running }

/-- The state reached from `sample_cycle_end` (a poll is scheduled) when stop
takes the mutex and the timer then expires: stop holds the mutex at line 256,
the work function waits for it at line 144. -/
def sample_stuck : conc_state :=
  { st := { sample_cycle_end with
      loc := { dev := usbnet_ptr.addr, carrier_work := { pending := false, timers := [] } } }
    local_mutex := mutex_owner.stop_caller
    stop_at := stop_pc.holding
    work_at := work_pc.at_lock }

/-- The device as bind leaves it once both endpoints are resolved. -/
def bind_pipes_set (s : ipheth_state) (bulk_in bulk_out : Nat) : ipheth_state :=
  { s with dev := { s.dev with
      in_pipe := usb_pipe.rcvbulk s.dev.udev (bulk_in &&& USB_ENDPOINT_NUMBER_MASK)
      out_pipe := usb_pipe.sndbulk s.dev.udev (bulk_out &&& USB_ENDPOINT_NUMBER_MASK)
      rx_urb_size := IPHETH_BUF_SIZE } }

/-- Consistency of the work item: at most one timer armed, and the PENDING bit set
exactly when a timer is armed. -/
def monitor_inv (w : delayed_work) : Prop :=
  w.timers.length ≤ 1 ∧ (w.pending = true ↔ w.timers ≠ [])

/-! Helper lemmas -/

theorem bulk_in_not_bulk_out (d : usb_endpoint_descriptor)
    (h : usb_endpoint_is_bulk_in d = true) : usb_endpoint_is_bulk_out d = false := by
  simp only [usb_endpoint_is_bulk_in, usb_endpoint_is_bulk_out, usb_endpoint_dir_in,
    usb_endpoint_dir_out, USB_DIR_IN, USB_DIR_OUT, Bool.and_eq_true, beq_iff_eq,
    Bool.and_eq_false_imp] at h ⊢
  intro _
  simp [h.2]

theorem bulk_in_addr_ne_zero (d : usb_endpoint_descriptor)
    (h : usb_endpoint_is_bulk_in d = true) : d.bEndpointAddress ≠ 0 := by
  intro h0
  simp [usb_endpoint_is_bulk_in, usb_endpoint_dir_in, h0, USB_DIR_IN, USB_ENDPOINT_DIR_MASK] at h

theorem last_match_addr_append (p : usb_endpoint_descriptor → Bool)
    (l : List usb_endpoint_descriptor) (d : usb_endpoint_descriptor) :
    last_match_addr p (l ++ [d]) = if p d then d.bEndpointAddress else last_match_addr p l := by
  unfold last_match_addr
  by_cases hp : p d = true
  · simp [List.filter_append, hp]
  · simp [List.filter_append, hp]

theorem last_match_addr_of_none (p : usb_endpoint_descriptor → Bool)
    (l : List usb_endpoint_descriptor) (h : ∀ d ∈ l, p d = false) :
    last_match_addr p l = 0 := by
  have hf : l.filter p = [] := by
    rw [List.filter_eq_nil_iff]
    intro d hd
    simp [h d hd]
  simp [last_match_addr, hf]

/-- The loop keeps, for each kind, the address of the last matching descriptor. -/
theorem ipheth_bind_scan_eq (l : List usb_endpoint_descriptor) :
    ipheth_bind_scan l =
      (last_match_addr usb_endpoint_is_bulk_in l, last_match_addr usb_endpoint_is_bulk_out l) := by
  induction l using List.reverseRecOn with
  | nil => rfl
  | append_singleton l d ih =>
    unfold ipheth_bind_scan at ih ⊢
    rw [List.foldl_append, ih, last_match_addr_append, last_match_addr_append]
    simp only [List.foldl_cons, List.foldl_nil, ipheth_bind_scan_step]
    by_cases hin : usb_endpoint_is_bulk_in d = true
    · simp [hin, bulk_in_not_bulk_out d hin]
    · by_cases hout : usb_endpoint_is_bulk_out d = true
      · simp [hin, hout]
      · simp [hin, hout]

theorem ctrl_buf_after_length (data : List Nat) :
    (ctrl_buf_after data).length = IPHETH_CTRL_BUF_SIZE := by
  simp only [ctrl_buf_after, List.length_append, List.length_replicate, List.length_take,
    IPHETH_CTRL_BUF_SIZE]
  omega

theorem memcpy_take (dst src : List Nat) (n : Nat) (h : n ≤ src.length) :
    (memcpy dst src n).take n = src.take n := by
  unfold memcpy
  rw [List.take_append_of_le_length (by simp [h])]
  simp

theorem memcpy_drop (dst src : List Nat) (n : Nat) (h : n ≤ src.length) :
    (memcpy dst src n).drop n = dst.drop n := by
  unfold memcpy
  have hl : (src.take n).length = n := by simp [h]
  rw [List.drop_append_eq_append_drop, hl]
  simp [List.drop_eq_nil_of_le (le_of_eq hl)]

theorem ipheth_get_macaddr_trace (s : ipheth_state) (x : ctrl_xfer) :
    (ipheth_get_macaddr s x).2.trace = s.trace ++
      [usb_event.control_msg (usb_pipe.rcvctrl s.dev.udev IPHETH_CTRL_ENDP)
        IPHETH_CMD_GET_MACADDR 0xc0 0x00 0x02 IPHETH_CTRL_BUF_SIZE IPHETH_CTRL_TIMEOUT] := by
  unfold ipheth_get_macaddr
  simp only
  split_ifs <;> rfl

theorem ipheth_get_macaddr_loc (s : ipheth_state) (x : ctrl_xfer) :
    (ipheth_get_macaddr s x).2.loc = s.loc := by
  unfold ipheth_get_macaddr
  simp only
  split_ifs <;> rfl

theorem ipheth_get_macaddr_pipes (s : ipheth_state) (x : ctrl_xfer) :
    (ipheth_get_macaddr s x).2.dev.in_pipe = s.dev.in_pipe ∧
    (ipheth_get_macaddr s x).2.dev.out_pipe = s.dev.out_pipe ∧
    (ipheth_get_macaddr s x).2.dev.rx_urb_size = s.dev.rx_urb_size ∧
    (ipheth_get_macaddr s x).2.dev.udev = s.dev.udev := by
  unfold ipheth_get_macaddr
  simp only
  split_ifs <;> exact ⟨rfl, rfl, rfl, rfl⟩

theorem ipheth_bind_of_resolved (s : ipheth_state) (intf : usb_interface) (x : ctrl_xfer)
    (hintf : usb_host_interface)
    (halt : usb_altnum_to_altsetting intf IPHETH_ALT_INTFNUM = some hintf)
    (hi : (ipheth_bind_scan hintf.endpoint).1 ≠ 0)
    (ho : (ipheth_bind_scan hintf.endpoint).2 ≠ 0) :
    ipheth_bind s intf x =
      if (ipheth_get_macaddr (bind_pipes_set s (ipheth_bind_scan hintf.endpoint).1
            (ipheth_bind_scan hintf.endpoint).2) x).1 != 0 then
        ipheth_get_macaddr (bind_pipes_set s (ipheth_bind_scan hintf.endpoint).1
            (ipheth_bind_scan hintf.endpoint).2) x
      else
        (0, { (ipheth_get_macaddr (bind_pipes_set s (ipheth_bind_scan hintf.endpoint).1
                (ipheth_bind_scan hintf.endpoint).2) x).2 with
              loc := { dev := usbnet_ptr.addr
                       carrier_work := INIT_DELAYED_WORK s.loc.carrier_work } }) := by
  have hc : (!((ipheth_bind_scan hintf.endpoint).1 != 0 &&
      (ipheth_bind_scan hintf.endpoint).2 != 0)) = false := by
    simp [hi, ho]
  have hl := ipheth_get_macaddr_loc (bind_pipes_set s (ipheth_bind_scan hintf.endpoint).1
      (ipheth_bind_scan hintf.endpoint).2) x
  unfold ipheth_bind
  rw [halt]
  simp only [hc, Bool.false_eq_true, if_false]
  unfold bind_pipes_set at hl ⊢
  by_cases h0 : (ipheth_get_macaddr { s with dev := { s.dev with
      in_pipe := usb_pipe.rcvbulk s.dev.udev
        ((ipheth_bind_scan hintf.endpoint).1 &&& USB_ENDPOINT_NUMBER_MASK)
      out_pipe := usb_pipe.sndbulk s.dev.udev
        ((ipheth_bind_scan hintf.endpoint).2 &&& USB_ENDPOINT_NUMBER_MASK)
      rx_urb_size := IPHETH_BUF_SIZE } } x).1 = 0
  · simp only [h0, bne_self_eq_false, Bool.false_eq_true, if_false, hl]
  · simp only [bne_iff_ne, ne_eq, h0, not_false_eq_true, if_true]

theorem ipheth_bind_of_unresolved (s : ipheth_state) (intf : usb_interface) (x : ctrl_xfer)
    (hintf : usb_host_interface)
    (halt : usb_altnum_to_altsetting intf IPHETH_ALT_INTFNUM = some hintf)
    (h : (ipheth_bind_scan hintf.endpoint).1 = 0 ∨ (ipheth_bind_scan hintf.endpoint).2 = 0) :
    ipheth_bind s intf x = (-ENODEV, s) := by
  unfold ipheth_bind
  rw [halt]
  rcases h with h | h <;> simp [h]

theorem exists_getLast_filter (p : usb_endpoint_descriptor → Bool)
    (l : List usb_endpoint_descriptor) (h : ∃ d ∈ l, p d = true) :
    ∃ d, (l.filter p).getLast? = some d ∧ d ∈ l ∧ p d = true := by
  obtain ⟨d0, hd0, hp0⟩ := h
  have hne : l.filter p ≠ [] := by
    intro hnil
    have hmem : d0 ∈ l.filter p := List.mem_filter.mpr ⟨hd0, hp0⟩
    rw [hnil] at hmem
    exact absurd hmem (List.not_mem_nil d0)
  cases hl : (l.filter p).getLast? with
  | none => exact absurd (List.getLast?_eq_none_iff.mp hl) hne
  | some d =>
    have hmem := List.mem_filter.mp (List.mem_of_getLast?_eq_some hl)
    exact ⟨d, rfl, hmem.1, hmem.2⟩

theorem valid_addr_ne_zero (d : usb_endpoint_descriptor) (h : usb_endpoint_valid d = true) :
    d.bEndpointAddress ≠ 0 := by
  intro h0
  simp [usb_endpoint_valid, h0] at h

/-- Claim C1.  For every valid endpoint-descriptor list of alternate setting 1
(no descriptor has endpoint number 0) that contains at least one bulk-in and at
least one bulk-out descriptor, there are a last bulk-in descriptor `din` and a
last bulk-out descriptor `dout` in descriptor order, and the endpoint loop of
bind ends with exactly the two addresses of `din` and `dout`.  Bind does not stop
at the endpoint check: it sets the receive pipe from the endpoint number of
`din`, the send pipe from the endpoint number of `dout`, the receive buffer size
1516, and goes on to issue the hardware address request.  Descriptors other
than `din` and `dout` do not appear in the result. -/
theorem ipheth_bind_resolves_last_endpoints (s : ipheth_state) (intf : usb_interface)
    (x : ctrl_xfer) (hintf : usb_host_interface)
    (halt : usb_altnum_to_altsetting intf IPHETH_ALT_INTFNUM = some hintf)
    (hvalid : ∀ d ∈ hintf.endpoint, usb_endpoint_valid d = true)
    (hin : ∃ d ∈ hintf.endpoint, usb_endpoint_is_bulk_in d = true)
    (hout : ∃ d ∈ hintf.endpoint, usb_endpoint_is_bulk_out d = true) :
    ∃ din dout,
      (hintf.endpoint.filter usb_endpoint_is_bulk_in).getLast? = some din ∧
      (hintf.endpoint.filter usb_endpoint_is_bulk_out).getLast? = some dout ∧
      ipheth_bind_scan hintf.endpoint = (din.bEndpointAddress, dout.bEndpointAddress) ∧
      (ipheth_bind s intf x).2.dev.in_pipe =
        usb_pipe.rcvbulk s.dev.udev (din.bEndpointAddress &&& USB_ENDPOINT_NUMBER_MASK) ∧
      (ipheth_bind s intf x).2.dev.out_pipe =
        usb_pipe.sndbulk s.dev.udev (dout.bEndpointAddress &&& USB_ENDPOINT_NUMBER_MASK) ∧
      (ipheth_bind s intf x).2.dev.rx_urb_size = IPHETH_BUF_SIZE ∧
      (ipheth_bind s intf x).2.trace = s.trace ++
        [usb_event.control_msg (usb_pipe.rcvctrl s.dev.udev IPHETH_CTRL_ENDP)
          IPHETH_CMD_GET_MACADDR 0xc0 0x00 0x02 IPHETH_CTRL_BUF_SIZE IPHETH_CTRL_TIMEOUT] := by
  obtain ⟨din, hlin, _, hdin⟩ := exists_getLast_filter usb_endpoint_is_bulk_in _ hin
  obtain ⟨dout, hlout, hmout, _⟩ := exists_getLast_filter usb_endpoint_is_bulk_out _ hout
  have hnz : dout.bEndpointAddress ≠ 0 := valid_addr_ne_zero dout (hvalid dout hmout)
  have hscan : ipheth_bind_scan hintf.endpoint =
      (din.bEndpointAddress, dout.bEndpointAddress) := by
    rw [ipheth_bind_scan_eq]
    simp [last_match_addr, hlin, hlout]
  have hi : (ipheth_bind_scan hintf.endpoint).1 ≠ 0 := by
    rw [hscan]; exact bulk_in_addr_ne_zero din hdin
  have ho : (ipheth_bind_scan hintf.endpoint).2 ≠ 0 := by
    rw [hscan]; exact hnz
  have hb := ipheth_bind_of_resolved s intf x hintf halt hi ho
  rw [hscan] at hb
  have hp := ipheth_get_macaddr_pipes
    (bind_pipes_set s din.bEndpointAddress dout.bEndpointAddress) x
  have ht := ipheth_get_macaddr_trace
    (bind_pipes_set s din.bEndpointAddress dout.bEndpointAddress) x
  refine ⟨din, dout, hlin, hlout, hscan, ?_, ?_, ?_, ?_⟩ <;> rw [hb] <;> split_ifs
  · exact hp.1
  · exact hp.1
  · exact hp.2.1
  · exact hp.2.1
  · exact hp.2.2.1
  · exact hp.2.2.1
  · exact ht
  · exact ht

/-- Witness for C1: the sample interface (interrupt 0x83, bulk-in 0x81, bulk-out
0x02) is valid and contains both kinds; bind sets the pipes for endpoint numbers
1 and 2. -/
theorem ipheth_bind_resolves_last_endpoints_witness :
    (ipheth_bind (ipheth_init sample_dev) sample_intf sample_mac_xfer).2.dev.in_pipe =
      usb_pipe.rcvbulk 7 1 ∧
    (ipheth_bind (ipheth_init sample_dev) sample_intf sample_mac_xfer).2.dev.out_pipe =
      usb_pipe.sndbulk 7 2 := by
  obtain ⟨din, dout, hin, hout, _, hi, ho, _⟩ :=
    ipheth_bind_resolves_last_endpoints (ipheth_init sample_dev) sample_intf
      sample_mac_xfer ⟨1, [⟨0x83, 3⟩, ⟨0x81, 2⟩, ⟨0x02, 2⟩]⟩
      (by decide) (by decide) (by decide) (by decide)
  have e1 : (List.filter usb_endpoint_is_bulk_in
      [(⟨0x83, 3⟩ : usb_endpoint_descriptor), ⟨0x81, 2⟩, ⟨0x02, 2⟩]).getLast? =
      some ⟨0x81, 2⟩ := by decide
  have e2 : (List.filter usb_endpoint_is_bulk_out
      [(⟨0x83, 3⟩ : usb_endpoint_descriptor), ⟨0x81, 2⟩, ⟨0x02, 2⟩]).getLast? =
      some ⟨0x02, 2⟩ := by decide
  have d1 : din = ⟨0x81, 2⟩ := (Option.some.inj (hin.symm.trans e1))
  have d2 : dout = ⟨0x02, 2⟩ := (Option.some.inj (hout.symm.trans e2))
  subst d1 d2
  exact ⟨hi, ho⟩

/-- Claim C2.  When alternate setting 1 is absent bind returns -ENODEV; when it is
present but its endpoint list has no bulk-in descriptor, or no bulk-out descriptor,
bind returns -ENODEV as well.  In each case the whole state is returned unchanged:
no request was issued (the trace is the same), neither pipe was set, and the
process-wide context (device pointer and work item) was not touched. -/
theorem ipheth_bind_missing_endpoint (s : ipheth_state) (intf : usb_interface)
    (x : ctrl_xfer) :
    (usb_altnum_to_altsetting intf IPHETH_ALT_INTFNUM = none →
      ipheth_bind s intf x = (-ENODEV, s)) ∧
    (∀ hintf, usb_altnum_to_altsetting intf IPHETH_ALT_INTFNUM = some hintf →
      ((∀ d ∈ hintf.endpoint, usb_endpoint_is_bulk_in d = false) ∨
       (∀ d ∈ hintf.endpoint, usb_endpoint_is_bulk_out d = false)) →
      ipheth_bind s intf x = (-ENODEV, s)) := by
  constructor
  · intro h
    unfold ipheth_bind
    rw [h]
  · intro hintf halt h
    apply ipheth_bind_of_unresolved s intf x hintf halt
    rw [ipheth_bind_scan_eq]
    rcases h with h | h
    · exact Or.inl (last_match_addr_of_none _ _ h)
    · exact Or.inr (last_match_addr_of_none _ _ h)

/-- Witness for C2: an interface without alternate setting 1, and one whose
alternate setting 1 has no bulk-out endpoint. -/
theorem ipheth_bind_missing_endpoint_witness :
    ipheth_bind (ipheth_init sample_dev) ⟨[⟨0, [⟨0x81, 2⟩, ⟨0x02, 2⟩]⟩]⟩ sample_mac_xfer =
      (-ENODEV, ipheth_init sample_dev) ∧
    ipheth_bind (ipheth_init sample_dev) no_out_intf sample_mac_xfer =
      (-ENODEV, ipheth_init sample_dev) :=
  ⟨(ipheth_bind_missing_endpoint (ipheth_init sample_dev) ⟨[⟨0, [⟨0x81, 2⟩, ⟨0x02, 2⟩]⟩]⟩
      sample_mac_xfer).1 (by decide),
   (ipheth_bind_missing_endpoint (ipheth_init sample_dev) no_out_intf sample_mac_xfer).2
      ⟨1, [⟨0x83, 3⟩, ⟨0x81, 2⟩]⟩ (by decide) (Or.inr (by decide))⟩

/-- Claim C3.  With `n` the result of the transfer and `ctrl_buf_after x.data` the
64-byte response buffer: if `n ≥ 6` the routine returns 0 and the first 6 bytes of
both `dev_addr` and `perm_addr` are the first 6 bytes of the buffer (the bytes
after the sixth keep their value); if `0 ≤ n < 6` it returns -EINVAL; if `n < 0`
it returns `n`; and in both failure cases the network device, hence either
address field, is unchanged. -/
theorem ipheth_get_macaddr_spec (s : ipheth_state) (x : ctrl_xfer) :
    (6 ≤ x.retval →
      (ipheth_get_macaddr s x).1 = 0 ∧
      (ipheth_get_macaddr s x).2.dev.net.dev_addr.take 6 = (ctrl_buf_after x.data).take 6 ∧
      (ipheth_get_macaddr s x).2.dev.net.perm_addr.take 6 = (ctrl_buf_after x.data).take 6 ∧
      (ipheth_get_macaddr s x).2.dev.net.dev_addr.drop 6 = s.dev.net.dev_addr.drop 6 ∧
      (ipheth_get_macaddr s x).2.dev.net.perm_addr.drop 6 = s.dev.net.perm_addr.drop 6 ∧
      ((ctrl_buf_after x.data).take 6).length = 6) ∧
    (0 ≤ x.retval → x.retval < 6 →
      (ipheth_get_macaddr s x).1 = -EINVAL ∧ (ipheth_get_macaddr s x).2.dev = s.dev) ∧
    (x.retval < 0 →
      (ipheth_get_macaddr s x).1 = x.retval ∧ (ipheth_get_macaddr s x).2.dev = s.dev) := by
  have hlen : ETH_ALEN ≤ (ctrl_buf_after x.data).length := by
    rw [ctrl_buf_after_length]; decide
  refine ⟨?_, ?_, ?_⟩
  · intro h
    have h1 : ¬ x.retval < 0 := by omega
    have h2 : ¬ x.retval < (ETH_ALEN : Int) := by simp only [ETH_ALEN]; omega
    unfold ipheth_get_macaddr
    dsimp only
    rw [if_neg h1, if_neg h2]
    refine ⟨rfl, ?_, ?_, ?_, ?_, ?_⟩
    · exact memcpy_take _ _ ETH_ALEN hlen
    · exact memcpy_take _ _ ETH_ALEN hlen
    · exact memcpy_drop _ _ ETH_ALEN hlen
    · exact memcpy_drop _ _ ETH_ALEN hlen
    · rw [List.length_take]
      exact Nat.min_eq_left hlen
  · intro h0 h6
    have h1 : ¬ x.retval < 0 := by omega
    have h2 : x.retval < (ETH_ALEN : Int) := by simp only [ETH_ALEN]; omega
    unfold ipheth_get_macaddr
    dsimp only
    rw [if_neg h1, if_pos h2]
    exact ⟨rfl, rfl⟩
  · intro h
    unfold ipheth_get_macaddr
    dsimp only
    rw [if_pos h]
    exact ⟨rfl, rfl⟩

/-- Witness for C3: the 64-byte response starting AA:BB:CC:DD:EE:FF, a 3-byte
response, and a failed transfer. -/
theorem ipheth_get_macaddr_spec_witness :
    ((ipheth_get_macaddr (ipheth_init sample_dev) sample_mac_xfer).1 = 0 ∧
      (ipheth_get_macaddr (ipheth_init sample_dev) sample_mac_xfer).2.dev.net.dev_addr.take 6 =
        (ctrl_buf_after sample_mac_xfer.data).take 6) ∧
    (ctrl_buf_after sample_mac_xfer.data).take 6 = [0xAA, 0xBB, 0xCC, 0xDD, 0xEE, 0xFF] ∧
    (ipheth_get_macaddr (ipheth_init sample_dev) ⟨3, [1, 2, 3]⟩).1 = -EINVAL ∧
    (ipheth_get_macaddr (ipheth_init sample_dev) sample_xfer_error).1 = -110 :=
  ⟨⟨((ipheth_get_macaddr_spec (ipheth_init sample_dev) sample_mac_xfer).1 (by decide)).1,
    ((ipheth_get_macaddr_spec (ipheth_init sample_dev) sample_mac_xfer).1 (by decide)).2.1⟩,
   by decide,
   ((ipheth_get_macaddr_spec (ipheth_init sample_dev) ⟨3, [1, 2, 3]⟩).2.1
      (by decide) (by decide)).1,
   ((ipheth_get_macaddr_spec (ipheth_init sample_dev) sample_xfer_error).2.2 (by decide)).1⟩

/-- Claim C4.  For a poll on a device (the pointer is not NULL), whatever the prior
carrier state: the routine returns the result of the transfer; if the transfer
succeeded (result not negative, zero included) the carrier is up exactly when
byte 0 of the response buffer is 0x04 and down otherwise; if the transfer failed
the device, hence its carrier state, is unchanged. -/
theorem ipheth_carrier_set_spec (s : ipheth_state) (x : ctrl_xfer) :
    (ipheth_carrier_set s usbnet_ptr.addr x).1 = x.retval ∧
    (0 ≤ x.retval → (ctrl_buf_after x.data).getD 0 0 = IPHETH_CARRIER_ON →
      (ipheth_carrier_set s usbnet_ptr.addr x).2.dev.net.carrier_ok = true) ∧
    (0 ≤ x.retval → (ctrl_buf_after x.data).getD 0 0 ≠ IPHETH_CARRIER_ON →
      (ipheth_carrier_set s usbnet_ptr.addr x).2.dev.net.carrier_ok = false) ∧
    (x.retval < 0 → (ipheth_carrier_set s usbnet_ptr.addr x).2.dev = s.dev) := by
  refine ⟨?_, ?_, ?_, ?_⟩
  · unfold ipheth_carrier_set
    simp only
    split_ifs <;> rfl
  · intro h0 hb
    have h1 : ¬ x.retval < 0 := by omega
    unfold ipheth_carrier_set
    simp only [h1, hb, if_false, beq_self_eq_true, if_true, netif_carrier_on]
  · intro h0 hb
    have h1 : ¬ x.retval < 0 := by omega
    have h2 : ((ctrl_buf_after x.data).getD 0 0 == IPHETH_CARRIER_ON) = false := by
      simpa using hb
    unfold ipheth_carrier_set
    simp only [h1, h2, if_false, Bool.false_eq_true, netif_carrier_off]
  · intro h
    unfold ipheth_carrier_set
    simp only [h, if_true]

/-- Witness for C4: byte 0 = 0x04 raises the carrier, byte 0 = 0x00 and an empty
response lower it, and a failed transfer leaves the device as it was. -/
theorem ipheth_carrier_set_spec_witness :
    (ipheth_carrier_set (ipheth_init sample_dev) usbnet_ptr.addr
      sample_carrier_on).2.dev.net.carrier_ok = true ∧
    (ipheth_carrier_set (ipheth_init sample_dev) usbnet_ptr.addr
      sample_carrier_off).2.dev.net.carrier_ok = false ∧
    (ipheth_carrier_set (ipheth_init sample_dev) usbnet_ptr.addr
      ⟨0, []⟩).2.dev.net.carrier_ok = false ∧
    (ipheth_carrier_set (ipheth_init sample_dev) usbnet_ptr.addr sample_xfer_error).2.dev =
      sample_dev :=
  ⟨(ipheth_carrier_set_spec (ipheth_init sample_dev) sample_carrier_on).2.1
      (by decide) (by decide),
   (ipheth_carrier_set_spec (ipheth_init sample_dev) sample_carrier_off).2.2.1
      (by decide) (by decide),
   (ipheth_carrier_set_spec (ipheth_init sample_dev) ⟨0, []⟩).2.2.1 (by decide) (by decide),
   (ipheth_carrier_set_spec (ipheth_init sample_dev) sample_xfer_error).2.2.2 (by decide)⟩

theorem ipheth_carrier_set_loc (s : ipheth_state) (dev : usbnet_ptr) (x : ctrl_xfer) :
    (ipheth_carrier_set s dev x).2.loc = s.loc := by
  unfold ipheth_carrier_set
  cases dev with
  | NULL => rfl
  | addr => simp only; split_ifs <;> rfl

theorem ipheth_carrier_set_trace (s : ipheth_state) (dev : usbnet_ptr) (x : ctrl_xfer) :
    (ipheth_carrier_set s dev x).2.trace = s.trace ++
      (match dev with
       | usbnet_ptr.NULL => []
       | usbnet_ptr.addr =>
         [usb_event.control_msg (usb_pipe.rcvctrl s.dev.udev IPHETH_CTRL_ENDP)
           IPHETH_CMD_CARRIER_CHECK 0xc0 0x00 0x02 IPHETH_CTRL_BUF_SIZE IPHETH_CTRL_TIMEOUT]) := by
  unfold ipheth_carrier_set
  cases dev with
  | NULL => simp
  | addr => simp only; split_ifs <;> rfl

theorem ipheth_carrier_check_work_work (s : ipheth_state) (x : ctrl_xfer) (k : kclock) :
    (ipheth_carrier_check_work s x k).loc.carrier_work =
      schedule_delayed_work s.loc.carrier_work (IPHETH_CARRIER_CHECK_TIMEOUT k) := by
  unfold ipheth_carrier_check_work
  simp only [ipheth_carrier_set_loc]

theorem schedule_delayed_work_pending (w : delayed_work) (d : Nat) :
    (schedule_delayed_work w d).pending = true := by
  unfold schedule_delayed_work
  by_cases h : w.pending = true
  · simp [h]
  · simp [h]

theorem ulong_add_quot (a b : Nat) :
    ∃ q, ulong_add a b + 18446744073709551616 * q = a + b ∧
      ulong_add a b < 18446744073709551616 :=
  ⟨(a + b) / 18446744073709551616, Nat.mod_add_div (a + b) 18446744073709551616,
    Nat.mod_lt _ (by decide)⟩

theorem ulong_sub_quot (a b : Nat) (hb : b < 18446744073709551616) :
    ∃ q, ulong_sub a b + 18446744073709551616 * q + b = a + 18446744073709551616 ∧
      ulong_sub a b < 18446744073709551616 := by
  refine ⟨(a + 18446744073709551616 - b) / 18446744073709551616, ?_, Nat.mod_lt _ (by decide)⟩
  have h := Nat.mod_add_div (a + 18446744073709551616 - b) 18446744073709551616
  have hb2 : b % 18446744073709551616 = b := Nat.mod_eq_of_lt hb
  unfold ulong_sub ULONG_MOD
  rw [hb2]
  omega

theorem quot_unique (r v q n : Nat)
    (h : r + 18446744073709551616 * q = v + 18446744073709551616 * n)
    (hr : r < 18446744073709551616) (hv : v < 18446744073709551616) : r = v := by
  omega

theorem round_down_value (HZ j c rem A J1 S J3 R q1 q2 q3 q5 q6 : Nat)
    (hA : A + 18446744073709551616 * q1 = HZ + j)
    (hJ1 : J1 + 18446744073709551616 * q2 = A + c)
    (hS : S + 18446744073709551616 * q3 + rem = J1 + 18446744073709551616)
    (hJ3 : J3 + 18446744073709551616 * q5 + c = S + 18446744073709551616)
    (hR : R + 18446744073709551616 * q6 + j = J3 + 18446744073709551616)
    (hRlt : R < 18446744073709551616) (hrem : rem < HZ) (hHZ : HZ < 2147483648) :
    R = HZ - rem := by
  obtain ⟨v, hv⟩ : ∃ v, v + rem = HZ := ⟨HZ - rem, by omega⟩
  have hsum : R + 18446744073709551616 * (q1 + q2 + q3 + q5 + q6) =
      v + 18446744073709551616 * 3 := by
    linarith only [hA, hJ1, hS, hJ3, hR, hv]
  have := quot_unique R v _ _ hsum hRlt (by omega)
  omega

theorem round_up_value (HZ j c rem A J1 S U J3 R q1 q2 q3 q4 q5 q6 : Nat)
    (hA : A + 18446744073709551616 * q1 = HZ + j)
    (hJ1 : J1 + 18446744073709551616 * q2 = A + c)
    (hS : S + 18446744073709551616 * q3 + rem = J1 + 18446744073709551616)
    (hU : U + 18446744073709551616 * q4 = S + HZ)
    (hJ3 : J3 + 18446744073709551616 * q5 + c = U + 18446744073709551616)
    (hR : R + 18446744073709551616 * q6 + j = J3 + 18446744073709551616)
    (hRlt : R < 18446744073709551616) (hrem : rem < HZ) (hHZ : HZ < 2147483648) :
    R = 2 * HZ - rem := by
  obtain ⟨v, hv⟩ : ∃ v, v + rem = 2 * HZ := ⟨2 * HZ - rem, by omega⟩
  have hsum : R + 18446744073709551616 * (q1 + q2 + q3 + q4 + q5 + q6) =
      v + 18446744073709551616 * 3 := by
    linarith only [hA, hJ1, hS, hU, hJ3, hR, hv]
  have := quot_unique R v _ _ hsum hRlt (by omega)
  omega

theorem unrounded_value (HZ j A D q0 q1 : Nat)
    (hA : A + 18446744073709551616 * q1 = HZ + j)
    (hD : D + 18446744073709551616 * q0 + j = A + 18446744073709551616)
    (hDlt : D < 18446744073709551616) (hHZ : HZ < 2147483648) : D = HZ := by
  have hsum : D + 18446744073709551616 * (q0 + q1) = HZ + 18446744073709551616 * 1 := by
    linarith only [hA, hD]
  exact quot_unique D HZ _ _ hsum hDlt (by omega)

theorem bound_round_down (HZ rem : Nat) (hr : rem < HZ / 4) :
    HZ - HZ / 4 < HZ - rem ∧ HZ - rem ≤ 2 * HZ - HZ / 4 := by
  omega

theorem bound_round_up (HZ rem : Nat) (hr : ¬ rem < HZ / 4) (hrem : rem < HZ) :
    HZ - HZ / 4 < 2 * HZ - rem ∧ 2 * HZ - rem ≤ 2 * HZ - HZ / 4 := by
  omega

theorem bound_unrounded (HZ : Nat) (h4 : 4 ≤ HZ) :
    HZ - HZ / 4 < HZ ∧ HZ ≤ 2 * HZ - HZ / 4 := by
  omega

/-- The rounded one-second delay is more than three quarters of a second and at
most a second and three quarters. -/
theorem round_jiffies_relative_bounds (k : kclock) (h : kclock_ok k = true) :
    k.HZ - k.HZ / 4 < round_jiffies_relative k (1 * k.HZ) ∧
    round_jiffies_relative k (1 * k.HZ) ≤ 2 * k.HZ - k.HZ / 4 := by
  simp only [kclock_ok, Bool.and_eq_true, decide_eq_true_eq, ULONG_MOD] at h
  obtain ⟨⟨⟨h4, hhz⟩, hj⟩, hc⟩ := h
  have hpos : 0 < k.HZ := by omega
  unfold round_jiffies_relative round_jiffies_common time_is_after_jiffies
  simp only [one_mul]
  obtain ⟨q1, hA, hAlt⟩ := ulong_add_quot k.HZ k.jiffies
  obtain ⟨q0, hD, hDlt⟩ := ulong_sub_quot (ulong_add k.HZ k.jiffies) k.jiffies hj
  have hDeq := unrounded_value _ _ _ _ _ _ hA hD hDlt hhz
  obtain ⟨q2, hJ1, hJ1lt⟩ := ulong_add_quot (ulong_add k.HZ k.jiffies) (k.cpu * 3)
  have hrem_lt := Nat.mod_lt (ulong_add (ulong_add k.HZ k.jiffies) (k.cpu * 3)) hpos
  have hremW : ulong_add (ulong_add k.HZ k.jiffies) (k.cpu * 3) % k.HZ < 18446744073709551616 :=
    lt_trans hrem_lt (lt_trans hhz (by decide))
  obtain ⟨q3, hS, hSlt⟩ := ulong_sub_quot (ulong_add (ulong_add k.HZ k.jiffies) (k.cpu * 3))
    (ulong_add (ulong_add k.HZ k.jiffies) (k.cpu * 3) % k.HZ) hremW
  have hcW : k.cpu * 3 < 18446744073709551616 := by omega
  by_cases hr : ulong_add (ulong_add k.HZ k.jiffies) (k.cpu * 3) % k.HZ < k.HZ / 4
  · simp only [hr, if_true]
    obtain ⟨q5, hJ3, hJ3lt⟩ := ulong_sub_quot (ulong_sub (ulong_add (ulong_add k.HZ k.jiffies)
      (k.cpu * 3)) (ulong_add (ulong_add k.HZ k.jiffies) (k.cpu * 3) % k.HZ)) (k.cpu * 3) hcW
    obtain ⟨q6, hR, hRlt⟩ := ulong_sub_quot (ulong_sub (ulong_sub (ulong_add
      (ulong_add k.HZ k.jiffies) (k.cpu * 3)) (ulong_add (ulong_add k.HZ k.jiffies)
      (k.cpu * 3) % k.HZ)) (k.cpu * 3)) k.jiffies hj
    have hReq := round_down_value _ _ _ _ _ _ _ _ _ _ _ _ _ _ hA hJ1 hS hJ3 hR hRlt hrem_lt hhz
    split_ifs
    · rw [hReq]; exact bound_round_down _ _ hr
    · rw [hDeq]; exact bound_unrounded _ h4
  · simp only [hr, if_false]
    obtain ⟨q4, hU, hUlt⟩ := ulong_add_quot (ulong_sub (ulong_add (ulong_add k.HZ k.jiffies)
      (k.cpu * 3)) (ulong_add (ulong_add k.HZ k.jiffies) (k.cpu * 3) % k.HZ)) k.HZ
    obtain ⟨q5, hJ3, hJ3lt⟩ := ulong_sub_quot (ulong_add (ulong_sub (ulong_add
      (ulong_add k.HZ k.jiffies) (k.cpu * 3)) (ulong_add (ulong_add k.HZ k.jiffies)
      (k.cpu * 3) % k.HZ)) k.HZ) (k.cpu * 3) hcW
    obtain ⟨q6, hR, hRlt⟩ := ulong_sub_quot (ulong_sub (ulong_add (ulong_sub (ulong_add
      (ulong_add k.HZ k.jiffies) (k.cpu * 3)) (ulong_add (ulong_add k.HZ k.jiffies)
      (k.cpu * 3) % k.HZ)) k.HZ) (k.cpu * 3)) k.jiffies hj
    have hReq := round_up_value _ _ _ _ _ _ _ _ _ _ _ _ _ _ _ _ hA hJ1 hS hU hJ3 hR hRlt
      hrem_lt hhz
    split_ifs
    · rw [hReq]; exact bound_round_up _ _ hr hrem_lt
    · rw [hDeq]; exact bound_unrounded _ h4

/-- Claim C5, as amended.  Whatever the poll does (transfer succeeded with any
byte 0, transfer failed with any error, or the device pointer is NULL so that no
transfer is made), the last action of the work function is
`schedule_delayed_work` with the delay `round_jiffies_relative(1 * HZ)`, and on
return the work item is pending, so the monitor is never left idle.  When the
item was not already pending on entry (the timer-fired case) the timer armed is
the new one with that delay; when it was pending, the timer already armed is
kept.  The delay is the one-second interval after rounding by the clock: with
readings in range it is more than `HZ - HZ / 4` ticks and at most
`2 * HZ - HZ / 4` ticks, not a fixed second. -/
theorem ipheth_carrier_check_work_reschedules (s : ipheth_state) (x : ctrl_xfer)
    (k : kclock) (hk : kclock_ok k = true) :
    (ipheth_carrier_check_work s x k).trace.getLast? =
      some (usb_event.schedule_delayed_work (round_jiffies_relative k (1 * k.HZ))) ∧
    monitor_scheduled (ipheth_carrier_check_work s x k) = true ∧
    monitor_idle (ipheth_carrier_check_work s x k) = false ∧
    (s.loc.carrier_work.pending = false →
      (ipheth_carrier_check_work s x k).loc.carrier_work.timers =
        s.loc.carrier_work.timers ++ [round_jiffies_relative k (1 * k.HZ)]) ∧
    (s.loc.carrier_work.pending = true →
      (ipheth_carrier_check_work s x k).loc.carrier_work = s.loc.carrier_work) ∧
    k.HZ - k.HZ / 4 < round_jiffies_relative k (1 * k.HZ) ∧
    round_jiffies_relative k (1 * k.HZ) ≤ 2 * k.HZ - k.HZ / 4 := by
  have hw := ipheth_carrier_check_work_work s x k
  have hb := round_jiffies_relative_bounds k hk
  refine ⟨?_, ?_, ?_, ?_, ?_, hb.1, hb.2⟩
  · unfold ipheth_carrier_check_work
    simp [IPHETH_CARRIER_CHECK_TIMEOUT]
  · simp only [monitor_scheduled, hw, schedule_delayed_work_pending]
  · simp only [monitor_idle, hw, schedule_delayed_work_pending, Bool.not_true, Bool.false_and]
  · intro h
    rw [hw]
    simp [schedule_delayed_work, h, IPHETH_CARRIER_CHECK_TIMEOUT]
  · intro h
    rw [hw]
    simp [schedule_delayed_work, h]

/-- Witness for C5 (amended): a timer-fired poll whose transfer fails, at the
sample clock, arms a timer of 1700 ticks, which lies between 750 and 1750. -/
theorem ipheth_carrier_check_work_reschedules_witness :
    (ipheth_carrier_check_work
      { ipheth_init sample_dev with loc := ⟨usbnet_ptr.addr, ⟨false, []⟩⟩ }
      sample_xfer_error sample_clock).loc.carrier_work.timers =
        [] ++ [round_jiffies_relative sample_clock (1 * sample_clock.HZ)] ∧
    round_jiffies_relative sample_clock (1 * sample_clock.HZ) = 1700 ∧
    sample_clock.HZ - sample_clock.HZ / 4 <
      round_jiffies_relative sample_clock (1 * sample_clock.HZ) :=
  ⟨(ipheth_carrier_check_work_reschedules
      { ipheth_init sample_dev with loc := ⟨usbnet_ptr.addr, ⟨false, []⟩⟩ }
      sample_xfer_error sample_clock (by decide)).2.2.2.1 rfl,
   by decide,
   (ipheth_carrier_check_work_reschedules (ipheth_init sample_dev) sample_xfer_error
      sample_clock (by decide)).2.2.2.2.2.1⟩

/-- Counterexample to C5 as stated: at 1000 ticks per second and tick 300 on
processor 0, a timer-fired poll arms its timer with a delay of 1700 ticks, that
is 1.7 seconds, not the fixed interval of one second (1000 ticks). -/
theorem ipheth_carrier_check_work_delay_not_one_second :
    sample_clock.HZ = 1000 ∧
    (ipheth_carrier_check_work (ipheth_init sample_dev) sample_carrier_on
      sample_clock).loc.carrier_work = ⟨true, [1700]⟩ ∧
    (ipheth_carrier_check_work (ipheth_init sample_dev) sample_carrier_on
      sample_clock).trace.getLast? = some (usb_event.schedule_delayed_work 1700) ∧
    IPHETH_CARRIER_CHECK_TIMEOUT sample_clock ≠ 1 * sample_clock.HZ := by
  decide

theorem ipheth_bind_cases (s : ipheth_state) (intf : usb_interface) (x : ctrl_xfer) :
    ipheth_bind s intf x = (-ENODEV, s) ∨
    (∃ a b, (ipheth_get_macaddr (bind_pipes_set s a b) x).1 ≠ 0 ∧
      ipheth_bind s intf x = ipheth_get_macaddr (bind_pipes_set s a b) x) ∨
    (∃ a b, (ipheth_get_macaddr (bind_pipes_set s a b) x).1 = 0 ∧
      ipheth_bind s intf x =
        (0, { (ipheth_get_macaddr (bind_pipes_set s a b) x).2 with
              loc := { dev := usbnet_ptr.addr
                       carrier_work := INIT_DELAYED_WORK s.loc.carrier_work } })) := by
  cases halt : usb_altnum_to_altsetting intf IPHETH_ALT_INTFNUM with
  | none =>
    left
    unfold ipheth_bind
    rw [halt]
  | some hintf =>
    by_cases hi : (ipheth_bind_scan hintf.endpoint).1 = 0
    · exact Or.inl (ipheth_bind_of_unresolved s intf x hintf halt (Or.inl hi))
    · by_cases ho : (ipheth_bind_scan hintf.endpoint).2 = 0
      · exact Or.inl (ipheth_bind_of_unresolved s intf x hintf halt (Or.inr ho))
      · have hb := ipheth_bind_of_resolved s intf x hintf halt hi ho
        by_cases h0 : (ipheth_get_macaddr (bind_pipes_set s (ipheth_bind_scan hintf.endpoint).1
            (ipheth_bind_scan hintf.endpoint).2) x).1 = 0
        · right; right
          refine ⟨_, _, h0, ?_⟩
          rw [hb]
          simp only [h0, bne_self_eq_false, Bool.false_eq_true, if_false]
        · right; left
          refine ⟨_, _, h0, ?_⟩
          rw [hb]
          simp only [bne_iff_ne, ne_eq, h0, not_false_eq_true, if_true]

theorem ipheth_bind_work (s : ipheth_state) (intf : usb_interface) (x : ctrl_xfer) :
    (ipheth_bind s intf x).2.loc.carrier_work = s.loc.carrier_work ∨
    (ipheth_bind s intf x).2.loc.carrier_work = INIT_DELAYED_WORK s.loc.carrier_work := by
  rcases ipheth_bind_cases s intf x with h | ⟨a, b, _, h⟩ | ⟨a, b, _, h⟩
  · left; rw [h]
  · left; rw [h, ipheth_get_macaddr_loc]; rfl
  · right; rw [h]

theorem ipheth_get_macaddr_ok (s : ipheth_state) (x : ctrl_xfer) (h : 6 ≤ x.retval) :
    (ipheth_get_macaddr s x).1 = 0 := by
  have h1 : ¬ x.retval < 0 := by omega
  have h2 : ¬ x.retval < (ETH_ALEN : Int) := by simp only [ETH_ALEN]; omega
  unfold ipheth_get_macaddr
  dsimp only
  rw [if_neg h1, if_neg h2]

/-- Claim C6, as amended.  When endpoint resolution succeeds (alternate setting 1
is present and the loop ends with both addresses non-zero) and the address fetch
succeeds (at least 6 bytes returned), bind returns 0, having recorded the device
in the process-wide context and initialised the carrier work item, but without
scheduling it: the only call it issued is the address request, the PENDING bit
of the work item is clear, bind armed no timer, and from a state with no timer
armed the monitor is idle on return.  No poll is pending when bind returns. -/
theorem ipheth_bind_success_monitor_not_scheduled (s : ipheth_state) (intf : usb_interface)
    (x : ctrl_xfer) (hintf : usb_host_interface)
    (halt : usb_altnum_to_altsetting intf IPHETH_ALT_INTFNUM = some hintf)
    (hi : (ipheth_bind_scan hintf.endpoint).1 ≠ 0)
    (ho : (ipheth_bind_scan hintf.endpoint).2 ≠ 0)
    (hx : 6 ≤ x.retval) :
    (ipheth_bind s intf x).1 = 0 ∧
    (ipheth_bind s intf x).2.loc.dev = usbnet_ptr.addr ∧
    (ipheth_bind s intf x).2.trace = s.trace ++
      [usb_event.control_msg (usb_pipe.rcvctrl s.dev.udev IPHETH_CTRL_ENDP)
        IPHETH_CMD_GET_MACADDR 0xc0 0x00 0x02 IPHETH_CTRL_BUF_SIZE IPHETH_CTRL_TIMEOUT] ∧
    monitor_scheduled (ipheth_bind s intf x).2 = false ∧
    (ipheth_bind s intf x).2.loc.carrier_work.timers = s.loc.carrier_work.timers ∧
    (s.loc.carrier_work.timers = [] → monitor_idle (ipheth_bind s intf x).2 = true) := by
  have hb := ipheth_bind_of_resolved s intf x hintf halt hi ho
  have h0 := ipheth_get_macaddr_ok (bind_pipes_set s (ipheth_bind_scan hintf.endpoint).1
    (ipheth_bind_scan hintf.endpoint).2) x hx
  have ht := ipheth_get_macaddr_trace (bind_pipes_set s (ipheth_bind_scan hintf.endpoint).1
    (ipheth_bind_scan hintf.endpoint).2) x
  rw [h0] at hb
  simp only [bne_self_eq_false, Bool.false_eq_true, if_false] at hb
  rw [hb]
  refine ⟨rfl, rfl, ht, rfl, rfl, ?_⟩
  intro hnil
  simp [monitor_idle, INIT_DELAYED_WORK, hnil]

/-- Witness for C6 (amended): the successful sample bind. -/
theorem ipheth_bind_success_monitor_not_scheduled_witness :
    (ipheth_bind (ipheth_init sample_dev) sample_intf sample_mac_xfer).1 = 0 ∧
    monitor_scheduled (ipheth_bind (ipheth_init sample_dev) sample_intf sample_mac_xfer).2 =
      false :=
  have h := ipheth_bind_success_monitor_not_scheduled (ipheth_init sample_dev) sample_intf
    sample_mac_xfer ⟨1, [⟨0x83, 3⟩, ⟨0x81, 2⟩, ⟨0x02, 2⟩]⟩
    (by decide) (by decide) (by decide) (by decide)
  ⟨h.1, h.2.2.2.1⟩

/-- Counterexample to C6 as stated: the sample device has a bulk-in and a bulk-out
endpoint and answers the address request with 64 bytes; bind returns 0, yet on
return the work item is not pending, no timer is armed and no
`schedule_delayed_work` call was made. -/
theorem ipheth_bind_success_leaves_monitor_idle :
    (ipheth_bind (ipheth_init sample_dev) sample_intf sample_mac_xfer).1 = 0 ∧
    monitor_scheduled (ipheth_bind (ipheth_init sample_dev) sample_intf sample_mac_xfer).2 =
      false ∧
    monitor_idle (ipheth_bind (ipheth_init sample_dev) sample_intf sample_mac_xfer).2 = true ∧
    (ipheth_bind (ipheth_init sample_dev) sample_intf sample_mac_xfer).2.loc.carrier_work.timers
      = [] ∧
    (ipheth_bind (ipheth_init sample_dev) sample_intf sample_mac_xfer).2.trace =
      [usb_event.control_msg (usb_pipe.rcvctrl 7 0) 0x00 0xc0 0x00 0x02 0x40 5] := by
  decide

theorem monitor_inv_schedule (w : delayed_work) (d : Nat) (h : monitor_inv w) :
    monitor_inv (schedule_delayed_work w d) := by
  unfold schedule_delayed_work
  by_cases hp : w.pending = true
  · simpa [hp] using h
  · have hnil : w.timers = [] := by
      by_contra hne
      exact hp (h.2.mpr hne)
    simp [hp, hnil, monitor_inv]

theorem monitor_inv_timer_fn_schedule (w : delayed_work) (d : Nat) (h : monitor_inv w) :
    monitor_inv (schedule_delayed_work (delayed_work_timer_fn w) d) := by
  have hlen := h.1
  have htail : w.timers.tail = [] := by
    cases hw : w.timers with
    | nil => rfl
    | cons a t =>
      rw [hw] at hlen
      cases t with
      | nil => rfl
      | cons b u => simp at hlen
  simp [schedule_delayed_work, delayed_work_timer_fn, htail, monitor_inv]

theorem monitor_inv_cancel (w : delayed_work) : monitor_inv (cancel_delayed_work_sync w) := by
  simp [cancel_delayed_work_sync, monitor_inv]

theorem monitor_inv_step_attached (s t : ipheth_state) (l : ipheth_step)
    (h : monitor_inv s.loc.carrier_work) (hs : step_attached s l = some t) :
    monitor_inv t.loc.carrier_work := by
  cases l with
  | bind intf x =>
    simp only [step_attached] at hs
    split_ifs at hs with hidle
    simp only [step, Option.some.injEq] at hs
    subst hs
    have hidle2 : s.loc.carrier_work.pending = false ∧ s.loc.carrier_work.timers = [] := by
      simpa [monitor_idle] using hidle
    rcases ipheth_bind_work s intf x with hw | hw
    · rw [hw]; exact h
    · rw [hw]
      simp [INIT_DELAYED_WORK, monitor_inv, hidle2.2]
  | reset x k =>
    simp only [step_attached, step, Option.some.injEq] at hs
    subst hs
    simp only [ipheth_reset, ipheth_carrier_check_work_work]
    exact monitor_inv_schedule _ _ h
  | poll x k =>
    simp only [step_attached, step] at hs
    split_ifs at hs with hempty
    simp only [Option.some.injEq] at hs
    subst hs
    rw [ipheth_carrier_check_work_work]
    exact monitor_inv_timer_fn_schedule _ _ h
  | stop =>
    simp only [step_attached, step, Option.some.injEq] at hs
    subst hs
    exact monitor_inv_cancel s.loc.carrier_work

theorem monitor_inv_run_attached (ls : List ipheth_step) :
    ∀ s t : ipheth_state, monitor_inv s.loc.carrier_work → run_attached s ls = some t →
      monitor_inv t.loc.carrier_work := by
  induction ls with
  | nil =>
    intro s t h hr
    simp only [run_attached, Option.some.injEq] at hr
    subst hr
    exact h
  | cons l ls ih =>
    intro s t h hr
    simp only [run_attached] at hr
    cases hst : step_attached s l with
    | none => rw [hst] at hr; simp at hr
    | some u =>
      rw [hst] at hr
      simp only [Option.some_bind] at hr
      exact ih u t (monitor_inv_step_attached s u l h hst) hr

/-- Claim C7, as amended.  In the step relation whose steps are bind, reset, a
timer-fired poll and stop, and in which a bind happens only while the monitor is
idle (one attach cycle at a time), every state reachable from the state at module
load has at most one timer armed for the carrier work item, and the item is
pending exactly when that timer exists.  In particular a reset performed in such
a state while a poll is scheduled leaves the work item as it was: no second
timer is armed. -/
theorem monitor_unique (dev : usbnet) (ls : List ipheth_step) (s : ipheth_state)
    (h : run_attached (ipheth_init dev) ls = some s) :
    s.loc.carrier_work.timers.length ≤ 1 ∧
    (s.loc.carrier_work.pending = true ↔ s.loc.carrier_work.timers ≠ []) ∧
    (∀ x k, monitor_scheduled s = true →
      (ipheth_reset s x k).2.loc.carrier_work = s.loc.carrier_work ∧
      (ipheth_reset s x k).2.loc.carrier_work.timers.length = 1) := by
  have hinit : monitor_inv (ipheth_init dev).loc.carrier_work := by
    simp [ipheth_init, monitor_inv]
  have hinv := monitor_inv_run_attached ls (ipheth_init dev) s hinit h
  refine ⟨hinv.1, hinv.2, ?_⟩
  intro x k hp
  have hp2 : s.loc.carrier_work.pending = true := hp
  have hw : (ipheth_reset s x k).2.loc.carrier_work = s.loc.carrier_work := by
    simp only [ipheth_reset, ipheth_carrier_check_work_work]
    simp [schedule_delayed_work, hp2]
  refine ⟨hw, ?_⟩
  rw [hw]
  have hne := hinv.2.mp hp2
  have hlen := hinv.1
  cases hts : s.loc.carrier_work.timers with
  | nil => exact absurd hts hne
  | cons a t =>
    rw [hts] at hlen
    simp only [List.length_cons] at hlen ⊢
    omega

/-- Witness for C7 (amended): bind, reset, a timer-fired poll, then a reset while
the next poll is scheduled. -/
theorem monitor_unique_witness :
    run_attached (ipheth_init sample_dev) sample_cycle = some sample_cycle_end ∧
    sample_cycle_end.loc.carrier_work.timers.length ≤ 1 :=
  ⟨by decide, (monitor_unique sample_dev sample_cycle sample_cycle_end (by decide)).1⟩

/-- Counterexample to C7 as stated: bind, reset, then a second bind while the
poll is scheduled, then reset.  The second bind re-initialises the work item
without disarming its timer, so the second reset arms another one: two timers
are outstanding for the one context. -/
theorem rebind_while_scheduled_arms_second_timer :
    (run (ipheth_init sample_dev)
      [ipheth_step.bind sample_intf sample_mac_xfer,
       ipheth_step.reset sample_carrier_on sample_clock,
       ipheth_step.bind sample_intf sample_mac_xfer,
       ipheth_step.reset sample_carrier_on sample_clock]).map
      (fun s => s.loc.carrier_work) = some ⟨true, [1700, 1700]⟩ := by
  decide

/-- When no poll gets in the way, the three moves of stop go through and leave
the state and the return value of the atomic `ipheth_stop`. -/
theorem conc_stop_undisturbed (s : ipheth_state) :
    conc_run (conc_init s)
      [conc_label.stop_lock, conc_label.stop_cancel, conc_label.stop_unlock] =
      some { st := (ipheth_stop s).2, local_mutex := mutex_owner.free,
             stop_at := stop_pc.returned, work_at := work_pc.not_running } ∧
    (ipheth_stop s).1 = 0 ∧
    (ipheth_stop s).2.loc.carrier_work = ⟨false, []⟩ ∧
    (ipheth_stop s).2.dev = s.dev := by
  refine ⟨rfl, rfl, rfl, rfl⟩

/-- Claim C8, evaluated at the failing input.  Start a call of `ipheth_stop` in
`sample_cycle_end`, where a poll is scheduled.  Stop takes the mutex (line 255);
the timer expires and the work function is entered, waiting for the mutex at
line 144.  In the state reached, stop has not returned and no move is possible:
`cancel_delayed_work_sync` waits for the work function, the work function waits
for the mutex, and nothing else can run.  Stop never returns 0. -/
theorem ipheth_stop_blocks_on_poll_in_flight :
    monitor_scheduled sample_cycle_end = true ∧
    conc_run (conc_init sample_cycle_end) [conc_label.stop_lock, conc_label.timer_expires] =
      some sample_stuck ∧
    sample_stuck.stop_at = stop_pc.holding ∧
    sample_stuck.work_at = work_pc.at_lock ∧
    (∀ l, conc_step sample_stuck l = none) ∧
    (∀ ls c, conc_run sample_stuck ls = some c → c = sample_stuck) := by
  have hstuck : ∀ l, conc_step sample_stuck l = none := by
    intro l
    cases l <;> rfl
  refine ⟨by decide, by decide, rfl, rfl, hstuck, ?_⟩
  intro ls c hr
  cases ls with
  | nil =>
    simp only [conc_run, Option.some.injEq] at hr
    exact hr.symm
  | cons l ls =>
    simp [conc_run, hstuck l] at hr

theorem ipheth_carrier_set_ok (s : ipheth_state) (x : ctrl_xfer) (h0 : 0 ≤ x.retval) :
    (ipheth_carrier_set s usbnet_ptr.addr x).2.dev.net.carrier_ok =
      ((ctrl_buf_after x.data).getD 0 0 == IPHETH_CARRIER_ON) := by
  have h1 : ¬ x.retval < 0 := by omega
  unfold ipheth_carrier_set
  dsimp only
  rw [if_neg h1]
  cases hb : ((ctrl_buf_after x.data).getD 0 0 == IPHETH_CARRIER_ON)
  · rw [if_neg (by simp)]; rfl
  · rw [if_pos rfl]; rfl

theorem ipheth_carrier_set_failed (s : ipheth_state) (x : ctrl_xfer) (h : x.retval < 0) :
    (ipheth_carrier_set s usbnet_ptr.addr x).2.dev = s.dev := by
  unfold ipheth_carrier_set
  dsimp only
  rw [if_pos h]

/-- Claim C9.  From every state, for every device response and every clock
reading, reset returns 0; the calls it issues are, in order: `usb_set_interface`
for interface 2 and alternate setting 1, then the calls of exactly one run of
the work function (the carrier-check request when a device is recorded, then
the reschedule), all before it returns.  On return the monitor is scheduled;
when a device is recorded and the transfer succeeded the carrier state is the
decoding of byte 0 of the fresh response (up exactly for 0x04), and when the
transfer failed the device is unchanged. -/
theorem ipheth_reset_spec (s : ipheth_state) (x : ctrl_xfer) (k : kclock) :
    (ipheth_reset s x k).1 = 0 ∧
    (ipheth_reset s x k).2.trace = s.trace ++ [usb_event.set_interface s.dev.udev 2 1] ++
      (match s.loc.dev with
       | usbnet_ptr.NULL => []
       | usbnet_ptr.addr =>
         [usb_event.control_msg (usb_pipe.rcvctrl s.dev.udev 0) 0x45 0xc0 0x00 0x02 0x40 5]) ++
      [usb_event.schedule_delayed_work (IPHETH_CARRIER_CHECK_TIMEOUT k)] ∧
    (ipheth_reset s x k).2 = ipheth_carrier_check_work
      { s with trace := s.trace ++ [usb_event.set_interface s.dev.udev 2 1] } x k ∧
    monitor_scheduled (ipheth_reset s x k).2 = true ∧
    (s.loc.dev = usbnet_ptr.addr → 0 ≤ x.retval →
      (ipheth_reset s x k).2.dev.net.carrier_ok =
        ((ctrl_buf_after x.data).getD 0 0 == IPHETH_CARRIER_ON)) ∧
    (s.loc.dev = usbnet_ptr.addr → x.retval < 0 → (ipheth_reset s x k).2.dev = s.dev) := by
  refine ⟨rfl, ?_, rfl, ?_, ?_, ?_⟩
  · simp only [ipheth_reset, ipheth_carrier_check_work, ipheth_carrier_set_trace]
    cases s.loc.dev <;> rfl
  · simp only [monitor_scheduled, ipheth_reset, ipheth_carrier_check_work_work,
      schedule_delayed_work_pending]
  · intro hd h0
    have hdev : (ipheth_reset s x k).2.dev = (ipheth_carrier_set
        { s with trace := s.trace ++ [usb_event.set_interface s.dev.udev 2 1] }
        usbnet_ptr.addr x).2.dev := by
      rw [← hd]; rfl
    rw [hdev]
    exact ipheth_carrier_set_ok _ x h0
  · intro hd h
    have hdev : (ipheth_reset s x k).2.dev = (ipheth_carrier_set
        { s with trace := s.trace ++ [usb_event.set_interface s.dev.udev 2 1] }
        usbnet_ptr.addr x).2.dev := by
      rw [← hd]; rfl
    rw [hdev]
    exact ipheth_carrier_set_failed _ x h

/-- Witness for C9: a reset on the bound sample device whose response has byte 0
equal to 0x04 raises the carrier before returning. -/
theorem ipheth_reset_spec_witness :
    (ipheth_reset (ipheth_stop sample_cycle_end).2 sample_carrier_on
      sample_clock).2.dev.net.carrier_ok =
      ((ctrl_buf_after sample_carrier_on.data).getD 0 0 == IPHETH_CARRIER_ON) ∧
    (ipheth_reset (ipheth_stop sample_cycle_end).2 sample_carrier_on
      sample_clock).2.dev.net.carrier_ok = true ∧
    (ipheth_reset (ipheth_stop sample_cycle_end).2 sample_xfer_error sample_clock).2.dev =
      sample_cycle_end.dev :=
  ⟨(ipheth_reset_spec (ipheth_stop sample_cycle_end).2 sample_carrier_on
      sample_clock).2.2.2.2.1 rfl (by decide),
   by decide,
   (ipheth_reset_spec (ipheth_stop sample_cycle_end).2 sample_xfer_error
      sample_clock).2.2.2.2.2 rfl (by decide)⟩

/-- Claim C10.  The ingress adjustment returns 1 for every frame; a frame of
length `n ≥ 2` comes out as the same bytes without the first two (length
`n - 2`, the rest unchanged and in order); the 10-byte frame 0..9 becomes 2..9;
and a second application to a frame of length at least 4 removes two more bytes
(four in all), so the result differs from that of a single application. -/
theorem ipheth_rx_fixup_spec :
    (∀ skb : sk_buff, (ipheth_rx_fixup skb).1 = 1) ∧
    (∀ skb : sk_buff, 2 ≤ skb.data.length →
      (ipheth_rx_fixup skb).2.data = skb.data.drop 2 ∧
      (ipheth_rx_fixup skb).2.data.length = skb.data.length - 2 ∧
      skb.data = skb.data.take 2 ++ (ipheth_rx_fixup skb).2.data) ∧
    (ipheth_rx_fixup ⟨[0, 1, 2, 3, 4, 5, 6, 7, 8, 9]⟩).2 = ⟨[2, 3, 4, 5, 6, 7, 8, 9]⟩ ∧
    (∀ skb : sk_buff, 4 ≤ skb.data.length →
      (ipheth_rx_fixup (ipheth_rx_fixup skb).2).2.data = skb.data.drop 4 ∧
      (ipheth_rx_fixup (ipheth_rx_fixup skb).2).2 ≠ (ipheth_rx_fixup skb).2) := by
  have hpull : ∀ skb : sk_buff, 2 ≤ skb.data.length →
      (ipheth_rx_fixup skb).2.data = skb.data.drop 2 := by
    intro skb h
    have h2 : ¬ 2 > skb.data.length := by omega
    simp only [ipheth_rx_fixup, skb_pull, IPHETH_IP_ALIGN, h2, if_false]
  refine ⟨fun _ => rfl, ?_, by decide, ?_⟩
  · intro skb h
    have hd := hpull skb h
    refine ⟨hd, ?_, ?_⟩
    · rw [hd, List.length_drop]
    · rw [hd, List.take_append_drop]
  · intro skb h
    have hd := hpull skb (by omega)
    have hl : 2 ≤ (ipheth_rx_fixup skb).2.data.length := by
      rw [hd, List.length_drop]; omega
    have hd2 := hpull (ipheth_rx_fixup skb).2 hl
    have h4 : (ipheth_rx_fixup (ipheth_rx_fixup skb).2).2.data = skb.data.drop 4 := by
      rw [hd2, hd, List.drop_drop]
    refine ⟨h4, ?_⟩
    intro heq
    have hlen := congrArg (fun b : sk_buff => b.data.length) heq
    simp only [h4, hd, List.length_drop] at hlen
    omega

/-- Witness for C10: a 4-byte frame, once and twice through the adjustment. -/
theorem ipheth_rx_fixup_spec_witness :
    (ipheth_rx_fixup ⟨[1, 2, 3, 4]⟩).2.data = [3, 4] ∧
    (ipheth_rx_fixup (ipheth_rx_fixup ⟨[1, 2, 3, 4]⟩).2).2.data = [] :=
  ⟨(ipheth_rx_fixup_spec.2.1 ⟨[1, 2, 3, 4]⟩ (by decide)).1,
   (ipheth_rx_fixup_spec.2.2.2 ⟨[1, 2, 3, 4]⟩ (by decide)).1⟩

end Ipheth
